import Mathlib

/-!
Shallow embedding of `plugins/modules/collaborator_information.py` from the
`ohioit/ansible-collection-github` collection.

The module talks to GitHub through a PyGithub session `g`.  We model the
remote side as an explicit `Provider` state (the repository's direct
collaborators plus an effective-permission oracle) and each Python function
as a pure Lean function that returns the list of remote API calls it issues
(its trace) together with its result.  Mutating calls (`add_to_collaborators`,
`remove_from_collaborators`) are interpreted onto the provider state by
`Provider.applyCall`.
-/

set_option autoImplicit false

namespace CollabInfo

/-- The four boolean permission flags GitHub reports on a collaborator
(`collaborator.permissions.{triage,push,pull,admin}`). -/
structure Permissions where
  triage : Bool
  push : Bool
  pull : Bool
  admin : Bool
deriving DecidableEq, Repr

/-- A direct collaborator as returned by the provider
(`collaborator.{login,id,type,site_admin,permissions}`). -/
structure Collaborator where
  login : String
  id : Int
  type : String
  site_admin : Bool
  permissions : Permissions
deriving DecidableEq, Repr

/-- One entry of the list built by `get_collaborators`: the keys written into
`collab_output` in source lines 252-262. -/
structure CollabOutput where
  login : String
  id : Int
  type : String
  site_admin : Bool
  permissions : Permissions
deriving DecidableEq, Repr

/-- A remote API call issued through the PyGithub session:
`g.get_repo`, `r.get_collaborators(affiliation="direct")`,
`r.add_to_collaborators(login, permission=level)`,
`r.remove_from_collaborators(login)`, `r.get_collaborator_permission(login)`. -/
inductive ApiCall where
  | getRepo (repo : String)
  | listCollaborators (repo : String)
  | grant (repo : String) (login : String) (level : String)
  | revoke (repo : String) (login : String)
  | getPermission (repo : String) (login : String)
deriving DecidableEq, Repr

/-- The calls that mutate remote state (grant and revoke); the reads do not. -/
def ApiCall.isMutation : ApiCall → Bool
  | .grant _ _ _ => true
  | .revoke _ _ => true
  | _ => false

/-- A trace with no mutating call in it. -/
def mutationFree (t : List ApiCall) : Bool :=
  t.all (fun c => !c.isMutation)

/-- Remote provider state for the one repository the module works on:
its direct collaborators, and the effective permission string returned by
`get_collaborator_permission` for a login. -/
structure Provider where
  collaborators : List Collaborator
  effectivePerm : String → String

/-- The logins of the current direct collaborators. -/
def Provider.logins (s : Provider) : List String :=
  s.collaborators.map (fun c => c.login)

/-- Modelled from the spec: the provider-side permission flags resulting from
a grant at a given level (the provider's own semantics, outside this
repository's code; §4.3/§6 of the spec).  None of the theorems below depend
on the particular flag mapping chosen here. -/
def permFlags (level : String) : Permissions :=
  { triage := level == "triage" || level == "push" || level == "admin"
    push := level == "push" || level == "admin"
    pull := true
    admin := level == "admin" }

/-- Modelled from the spec: the effect of one API call on provider state.
A grant sets the collaborator's permission, creating the relationship if
absent and overwriting if present (§4.3 Add); a revoke removes the direct
collaborator; reads change nothing (§6). -/
def Provider.applyCall (s : Provider) : ApiCall → Provider
  | .grant _ login level =>
      if s.collaborators.any (fun c => c.login == login) then
        { s with collaborators :=
            s.collaborators.map (fun c =>
              if c.login == login then { c with permissions := permFlags level } else c) }
      else
        { s with collaborators :=
            s.collaborators ++ [{ login := login, id := 0, type := "User",
                                  site_admin := false, permissions := permFlags level }] }
  | .revoke _ login =>
      { s with collaborators := s.collaborators.filter (fun c => c.login != login) }
  | _ => s

/-- Interpret a whole trace of API calls onto the provider state. -/
def Provider.applyTrace (s : Provider) (t : List ApiCall) : Provider :=
  t.foldl Provider.applyCall s

/-- `add_collaborator(g, repo, to_add)` (source lines 213-216): fetch the
repository, then for each `(login, level)` in `to_add` issue
`r.add_to_collaborators(login, permission=level)`.  Python dicts iterate in
insertion order, so `to_add` is an association list. -/
def add_collaborator (repo : String) (to_add : List (String × String)) : List ApiCall :=
  ApiCall.getRepo repo :: to_add.map (fun p => ApiCall.grant repo p.1 p.2)

/-- `check_permissions(g, repo, user_to_check)` (source lines 219-225):
`status` starts `True`; for each `(user, permission)` pair, if
`r.get_collaborator_permission(user) != permission` then `status = False`.
Returns the trace of calls issued and the final `status`. -/
def check_permissions (s : Provider) (repo : String)
    (user_to_check : List (String × String)) : List ApiCall × Bool :=
  (ApiCall.getRepo repo :: user_to_check.map (fun p => ApiCall.getPermission repo p.1),
   user_to_check.foldl
     (fun status p => if s.effectivePerm p.1 != p.2 then false else status) true)

/-- `del_collaborators(g, repo, to_remove)` (source lines 228-233): read the
direct collaborators, then for each collaborator whose login is in
`to_remove` issue `r.remove_from_collaborators(collaborator.login)`. -/
def del_collaborators (s : Provider) (repo : String)
    (to_remove : List String) : List ApiCall :=
  ApiCall.getRepo repo :: ApiCall.listCollaborators repo ::
    (s.collaborators.filter (fun c => to_remove.contains c.login)).map
      (fun c => ApiCall.revoke repo c.login)

/-- `change_collaborator_permissions(g, repo, to_change)` (source lines
236-244): read the direct collaborators into `collaborator_set`, then for
each `(login, level)` in `to_change` with `login` in that set issue
`r.add_to_collaborators(login, permission=level)`. -/
def change_collaborator_permissions (s : Provider) (repo : String)
    (to_change : List (String × String)) : List ApiCall :=
  ApiCall.getRepo repo :: ApiCall.listCollaborators repo ::
    (to_change.filter (fun p => (s.collaborators.map (fun c => c.login)).contains p.1)).map
      (fun p => ApiCall.grant repo p.1 p.2)

/-- The dict entry written for a collaborator by the loop body of
`get_collaborators` (source lines 252-262). -/
def collabEntry (c : Collaborator) : CollabOutput :=
  { login := c.login
    id := c.id
    type := c.type
    site_admin := c.site_admin
    permissions :=
      { triage := c.permissions.triage
        push := c.permissions.push
        pull := c.permissions.pull
        admin := c.permissions.admin } }

/-- `get_collaborators(g, repo)` (source lines 247-266).  NOTE the aliasing in
the source: `collab_output = dict()` is created once, before the loop, and
`output.append(collab_output)` appends that same dict object on every
iteration while the loop body overwrites its keys.  After the loop every
element of `output` is the one shared dict, holding the values written for
the last collaborator.  Hence the result is `length cs` copies of the entry
for the last collaborator (and `[]` when there are none). -/
def get_collaborators (cs : List Collaborator) : List CollabOutput :=
  match cs.getLast? with
  | none => []
  | some last => List.replicate cs.length (collabEntry last)

/-- The remote calls `get_collaborators` issues before its loop:
`g.get_repo(repo).get_collaborators(affiliation="direct")`. -/
def readTrace (repo : String) : List ApiCall :=
  [ApiCall.getRepo repo, ApiCall.listCollaborators repo]

/-- A JSON document, as produced by `json.dumps`.  `json.dumps` is injective
on documents (parsing inverts it), so comparing the dumped strings of two
snapshots compares their JSON trees; we therefore model the dumped string by
the tree it prints.  Arrays and objects are spine-encoded
(`arrNil`/`arrCons`, `objNil`/`objCons`) — an isomorphic representation of
JSON sequences that keeps equality structurally decidable. -/
inductive Json where
  | str (s : String)
  | num (n : Int)
  | bool (b : Bool)
  | arrNil
  | arrCons (head : Json) (tail : Json)
  | objNil
  | objCons (key : String) (value : Json) (tail : Json)
deriving DecidableEq, Repr

/-- Build a spine-encoded JSON array from a list of elements. -/
def Json.arrOf : List Json → Json
  | [] => .arrNil
  | x :: xs => .arrCons x (Json.arrOf xs)

/-- Build a spine-encoded JSON object from an ordered field list. -/
def Json.objOf : List (String × Json) → Json
  | [] => .objNil
  | (k, v) :: fs => .objCons k v (Json.objOf fs)

/-- The JSON object `json.dumps` prints for the `permissions` dict built in
source lines 256-261 (keys in insertion order). -/
def jsonOfPermissions (p : Permissions) : Json :=
  .objOf [("triage", .bool p.triage), ("push", .bool p.push),
          ("pull", .bool p.pull), ("admin", .bool p.admin)]

/-- The JSON object `json.dumps` prints for one `collab_output` dict (keys in
the insertion order of source lines 252-262). -/
def jsonOfCollab (c : CollabOutput) : Json :=
  .objOf [("login", .str c.login), ("id", .num c.id), ("type", .str c.type),
          ("site_admin", .bool c.site_admin), ("permissions", jsonOfPermissions c.permissions)]

/-- The JSON document `json.dumps` prints for a whole snapshot list. -/
def serialize (l : List CollabOutput) : Json :=
  .arrOf (l.map jsonOfCollab)

/-- The module parameters (source lines 270-279), with the source defaults.
`dict`-typed parameters are optional association lists, the `list`-typed
`collaborators_to_remove` an optional list; `none` models Python `None`. -/
structure ModuleParams where
  token : String := "John Doe"
  organization_name : String := "default"
  enterprise_url : String := ""
  repo : String := ""
  collaborators_to_add : Option (List (String × String)) := none
  check_collaborator : Option (List (String × String)) := none
  collaborators_to_change : Option (List (String × String)) := none
  collaborators_to_remove : Option (List String) := none

/-- Python truthiness of an optional dict parameter: `None` and `{}` are
falsy. -/
def truthyDict (o : Option (List (String × String))) : Bool :=
  match o with
  | none => false
  | some l => !l.isEmpty

/-- Python truthiness of the optional list parameter. -/
def truthyList (o : Option (List String)) : Bool :=
  match o with
  | none => false
  | some l => !l.isEmpty

/-- Python truthiness of a string: nonempty. -/
def truthyStr (s : String) : Bool :=
  s.length != 0

/-- `valid_permissions = ["push", "pull", "admin"]` (source line 291). -/
def valid_permissions : List String :=
  ["push", "pull", "admin"]

/-- The qualified repository path built in source lines 300-301:
`module.params['repo'] = organization_name + "/" + repo`. -/
def qualifiedRepo (p : ModuleParams) : String :=
  p.organization_name ++ "/" ++ p.repo

/-- Python `str.lower()`, mapping each character to lowercase (structurally,
so that concrete instances reduce; identical to `String.toLower`). -/
def pyLower (s : String) : String :=
  ⟨s.data.map Char.toLower⟩

/-- The validation loop of source lines 305-310: when `collaborators_to_add`
is truthy, the first `(username, level)` whose lowercased level is not in
`valid_permissions`; the loop calls `module.exit_json(..., failed=True)` at
that first offender. -/
def validationFailure (to_add : Option (List (String × String))) : Option (String × String) :=
  if truthyDict to_add then
    (to_add.getD []).find? (fun p => !valid_permissions.contains (pyLower p.2))
  else
    none

/-- How `run_module` terminates: `failedInvalid msg` models
`module.exit_json(changed=False, failed=True, msg=msg)` at line 308;
`returnedResult changed fact` models `return result` at line 331 (check
mode), where `result = dict(changed=False, fact='')`; `success changed
collaborators` models `module.exit_json(changed=..., collaborators=...)` at
lines 333-334. -/
inductive ModuleExit where
  | failedInvalid (msg : String)
  | returnedResult (changed : Bool) (fact : String)
  | success (changed : Bool) (collaborators : List CollabOutput)
deriving DecidableEq, Repr

/-- Result of one run: the trace of remote API calls the module issued, and
how it exited. -/
structure RunResult where
  trace : List ApiCall
  exit : ModuleExit
deriving Repr

/-- Step 4 of `run_module` (source lines 312-314): the calls issued by the
add step.  The guard mirrors the nesting of the source: the outer
`if module.params['collaborators_to_add']:`, the inner
`if len(...) and module.params['repo']:`. -/
def addStep (p : ModuleParams) : List ApiCall :=
  if truthyDict p.collaborators_to_add &&
      !(p.collaborators_to_add.getD []).isEmpty && truthyStr (qualifiedRepo p) then
    add_collaborator (qualifiedRepo p) (p.collaborators_to_add.getD [])
  else []

/-- Provider state after the add step. -/
def stateAfterAdd (s : Provider) (p : ModuleParams) : Provider :=
  s.applyTrace (addStep p)

/-- Step 5 of `run_module` (source lines 316-318): the calls issued by the
remove step, against the state left by the add step. -/
def removeStep (s : Provider) (p : ModuleParams) : List ApiCall :=
  if truthyList p.collaborators_to_remove && truthyStr (qualifiedRepo p) then
    del_collaborators (stateAfterAdd s p) (qualifiedRepo p) (p.collaborators_to_remove.getD [])
  else []

/-- Provider state after the remove step. -/
def stateAfterRemove (s : Provider) (p : ModuleParams) : Provider :=
  (stateAfterAdd s p).applyTrace (removeStep s p)

/-- Step 6 of `run_module` (source lines 320-322): the calls issued by the
check step (its boolean result is computed and discarded by the source). -/
def checkStep (s : Provider) (p : ModuleParams) : List ApiCall :=
  if truthyDict p.check_collaborator && truthyStr (qualifiedRepo p) then
    (check_permissions (stateAfterRemove s p) (qualifiedRepo p)
      (p.check_collaborator.getD [])).1
  else []

/-- Provider state after the check step. -/
def stateAfterCheck (s : Provider) (p : ModuleParams) : Provider :=
  (stateAfterRemove s p).applyTrace (checkStep s p)

/-- Step 7 of `run_module` (source lines 324-326): the calls issued by the
change step, against the state left by the previous steps. -/
def changeStep (s : Provider) (p : ModuleParams) : List ApiCall :=
  if truthyDict p.collaborators_to_change && truthyStr (qualifiedRepo p) then
    change_collaborator_permissions (stateAfterCheck s p) (qualifiedRepo p)
      (p.collaborators_to_change.getD [])
  else []

/-- Provider state after the change step. -/
def stateAfterChange (s : Provider) (p : ModuleParams) : Provider :=
  (stateAfterCheck s p).applyTrace (changeStep s p)

/-- `run_module()` (source lines 269-334) for one invocation against provider
state `s`, with Ansible check mode as `check_mode`.  The provider state is
threaded through the mutation steps with `Provider.applyTrace`, so the
snapshots `del_collaborators`, `change_collaborator_permissions` and the
final read see reflect the mutations already applied.  Control flow:
read `before` (line 303); validate `collaborators_to_add` and
`exit_json(failed=True, msg=...)` at the first invalid level (lines
305-310); otherwise run the four steps, read `after` (line 328); in check
mode `return result` (lines 330-331); otherwise
`exit_json(changed=json.dumps(before) != json.dumps(after),
collaborators=after)` (lines 333-334). -/
def run_module (check_mode : Bool) (s : Provider) (p : ModuleParams) : RunResult :=
  let repo := qualifiedRepo p
  match validationFailure p.collaborators_to_add with
  | some offender =>
      { trace := readTrace repo
        exit := .failedInvalid ("Invalid permission: " ++ offender.2 ++
                  ". Permissions must be 'push' 'pull' or 'admin'") }
  | none =>
      let output := get_collaborators (stateAfterChange s p).collaborators
      { trace := readTrace repo ++ addStep p ++ removeStep s p ++
                 checkStep s p ++ changeStep s p ++ readTrace repo
        exit :=
          if check_mode then .returnedResult false ""
          else .success
            (serialize (get_collaborators s.collaborators) != serialize output) output }

/-! ### Sample data for concrete witnesses and counterexamples -/

/-- Push-level permission flags, as GitHub reports them. -/
def permsPush : Permissions :=
  { triage := true, push := true, pull := true, admin := false }

/-- Pull-level permission flags, as GitHub reports them. -/
def permsPull : Permissions :=
  { triage := false, push := false, pull := true, admin := false }

/-- A sample direct collaborator. -/
def alice : Collaborator :=
  { login := "alice", id := 1, type := "User", site_admin := false, permissions := permsPush }

/-- A second, distinct sample direct collaborator. -/
def bob : Collaborator :=
  { login := "bob", id := 2, type := "User", site_admin := true, permissions := permsPull }

/-- A provider with the two direct collaborators `alice` and `bob`; every
effective-permission query answers "push". -/
def sTwo : Provider :=
  { collaborators := [alice, bob], effectivePerm := fun _ => "push" }

/-- Parameters adding `carol` with level "push" to repository `default/r`. -/
def pAddCarol : ModuleParams :=
  { repo := "r", collaborators_to_add := some [("carol", "push")] }

/-- Parameters whose `collaborators_to_add` carries the invalid level
"superadmin" for login `alice`. -/
def pBadAlice : ModuleParams :=
  { repo := "r", collaborators_to_add := some [("alice", "superadmin")] }

/-- Same invalid level "superadmin", but for login `bob`. -/
def pBadBob : ModuleParams :=
  { repo := "r", collaborators_to_add := some [("bob", "superadmin")] }

/-- Parameters whose `collaborators_to_change` carries the level "triage" —
not a valid grant level — for the existing collaborator `alice`. -/
def pChangeTriage : ModuleParams :=
  { repo := "r", collaborators_to_change := some [("alice", "triage")] }

/-- Decoder for `jsonOfPermissions`: recovers the permission flags from the
printed object (retraction witnessing that `json.dumps` loses nothing). -/
def permissionsOfJson : Json → Permissions
  | .objCons _ (.bool t) (.objCons _ (.bool pu) (.objCons _ (.bool pl)
      (.objCons _ (.bool ad) .objNil))) =>
      { triage := t, push := pu, pull := pl, admin := ad }
  | _ => { triage := false, push := false, pull := false, admin := false }

/-- Decoder for `jsonOfCollab`: recovers the snapshot entry from the printed
object. -/
def collabOfJson : Json → CollabOutput
  | .objCons _ (.str login) (.objCons _ (.num id) (.objCons _ (.str ty)
      (.objCons _ (.bool sa) (.objCons _ perm .objNil)))) =>
      { login := login, id := id, type := ty, site_admin := sa,
        permissions := permissionsOfJson perm }
  | _ => { login := "", id := 0, type := "", site_admin := false,
           permissions := { triage := false, push := false, pull := false, admin := false } }

/-- Decoder for `serialize`: recovers the snapshot list from the printed
array. -/
def listOfJsonArr : Json → List CollabOutput
  | .arrCons x xs => collabOfJson x :: listOfJsonArr xs
  | _ => []

/-- Parameters naming only the repository: all four directive sets absent. -/
def pEmpty : ModuleParams :=
  { repo := "r" }

/-- Parameters adding `carol` with the upper-case level string "ADMIN". -/
def pAddCarolUpper : ModuleParams :=
  { repo := "r", collaborators_to_add := some [("carol", "ADMIN")] }

/-! ### Helper lemmas -/

/-- A non-mutating call leaves the provider state unchanged. -/
theorem applyCall_eq_of_not_mutation (s : Provider) (c : ApiCall)
    (h : c.isMutation = false) : s.applyCall c = s := by
  cases c <;> simp_all [ApiCall.isMutation, Provider.applyCall]

/-- A mutation-free trace leaves the provider state unchanged. -/
theorem applyTrace_eq_of_mutationFree (s : Provider) (t : List ApiCall)
    (h : mutationFree t = true) : s.applyTrace t = s := by
  induction t generalizing s with
  | nil => rfl
  | cons c t ih =>
      simp only [mutationFree, List.all_cons, Bool.and_eq_true, Bool.not_eq_eq_eq_not,
        Bool.not_true] at h
      show Provider.applyTrace (s.applyCall c) t = s
      rw [applyCall_eq_of_not_mutation s c h.1]
      exact ih s h.2

/-! ### Claims -/

/-- C1: the snapshot returned by `get_collaborators` should hold one entry
per direct collaborator, the i-th entry carrying the i-th collaborator's own
login, id, type, site_admin and permission flags, with distinct
collaborators giving distinct records.  The code creates the `collab_output`
dict once, before the loop, and appends that same object on every
iteration, so with the two distinct collaborators `alice` and `bob` both
returned entries are the record of the last collaborator: the logins read
`["bob", "bob"]`, not `["alice", "bob"]`. -/
theorem C1_reader_aliases_last_collaborator :
    get_collaborators [alice, bob] = [collabEntry bob, collabEntry bob] ∧
    (get_collaborators [alice, bob]).map (fun c => c.login) ≠ ["alice", "bob"] := by
  constructor
  · rfl
  · decide

/-- C2: the claim that a check-mode (dry-run) invocation performs only the
read is violated by the code: the check-mode test at source line 330 comes
after all four mutation steps, so with check mode on and
`collaborators_to_add = {carol: push}` the grant is still issued to the
provider; check mode only replaces the final `exit_json` with
`return result`. -/
theorem C2_check_mode_still_issues_grant :
    ApiCall.grant "default/r" "carol" "push" ∈ (run_module true sTwo pAddCarol).trace ∧
    (run_module true sTwo pAddCarol).exit = ModuleExit.returnedResult false "" := by
  decide

/-- C3 counterexample: the invocation does abort before any mutation, but
its failure report does not name the offending login.  Two invocations that
differ solely in the offending login produce the identical report — the
fixed text "Invalid permission: superadmin. Permissions must be 'push'
'pull' or 'admin'" — so the report cannot name the login, refuting the
claim as stated. -/
theorem C3_report_lacks_login_counterexample :
    (run_module false sTwo pBadAlice).exit = (run_module false sTwo pBadBob).exit ∧
    (run_module false sTwo pBadAlice).exit =
      ModuleExit.failedInvalid
        "Invalid permission: superadmin. Permissions must be 'push' 'pull' or 'admin'" := by
  decide

/-- C3 (amended): an invocation whose `toAdd` directive contains a level
outside {push, pull, admin} (case-insensitively) aborts with a validation
failure before any mutation is issued — the trace holds no mutating call
and the provider state is unchanged — and the failure report names the
offending level (but not the offending login). -/
theorem C3_invalid_add_aborts_before_mutation (cm : Bool) (s : Provider)
    (p : ModuleParams) (u l : String)
    (h : validationFailure p.collaborators_to_add = some (u, l)) :
    (run_module cm s p).exit =
      ModuleExit.failedInvalid ("Invalid permission: " ++ l ++
        ". Permissions must be 'push' 'pull' or 'admin'") ∧
    mutationFree (run_module cm s p).trace = true ∧
    Provider.applyTrace s (run_module cm s p).trace = s := by
  refine ⟨?_, ?_, ?_⟩ <;>
    simp [run_module, h, readTrace, mutationFree, ApiCall.isMutation,
      Provider.applyTrace, Provider.applyCall]

/-- C3 witness: the amended theorem applied to the concrete invalid
directive `{alice: superadmin}` against the two-collaborator provider. -/
theorem C3_invalid_add_aborts_before_mutation_witness :
    (run_module false sTwo pBadAlice).exit =
      ModuleExit.failedInvalid ("Invalid permission: " ++ "superadmin" ++
        ". Permissions must be 'push' 'pull' or 'admin'") ∧
    mutationFree (run_module false sTwo pBadAlice).trace = true ∧
    Provider.applyTrace sTwo (run_module false sTwo pBadAlice).trace = sTwo :=
  C3_invalid_add_aborts_before_mutation false sTwo pBadAlice "alice" "superadmin" (by decide)

/-- The qualified repository path `organization + "/" + repo` is never the
empty string, so the `and module.params['repo']` guards always pass. -/
theorem truthyStr_qualifiedRepo (p : ModuleParams) : truthyStr (qualifiedRepo p) = true := by
  have h1 : "/".length = 1 := rfl
  have h : (qualifiedRepo p).length =
      p.organization_name.length + 1 + p.repo.length := by
    simp [qualifiedRepo, String.length_append, h1]
  simp [truthyStr, h]

/-- C4 counterexample: a `toChange` entry with the invalid level "triage"
for the current collaborator `alice` does not cause a validation failure:
the invocation completes (exiting with `success`, not `failedInvalid`) and
the level "triage" is forwarded to the provider as a grant. -/
theorem C4_invalid_change_forwarded_counterexample :
    ApiCall.grant "default/r" "alice" "triage" ∈ (run_module false sTwo pChangeTriage).trace ∧
    (run_module false sTwo pChangeTriage).exit =
      ModuleExit.success false [collabEntry bob, collabEntry bob] := by
  decide

/-- C4 (amended): only the `toAdd` directive set is level-validated.  A
`toChange` entry carrying any level string whatsoever — "triage",
"superadmin", ... — never causes a validation failure; when its login is a
current direct collaborator the level is forwarded unchanged to the
provider as a grant. -/
theorem C4_change_level_not_validated (cm : Bool) (s : Provider) (u l : String)
    (p : ModuleParams)
    (hadd : p.collaborators_to_add = none)
    (hrem : p.collaborators_to_remove = none)
    (hchk : p.check_collaborator = none)
    (hchg : p.collaborators_to_change = some [(u, l)])
    (hmem : u ∈ s.logins) :
    ApiCall.grant (qualifiedRepo p) u l ∈ (run_module cm s p).trace ∧
    (∀ m, (run_module cm s p).exit ≠ ModuleExit.failedInvalid m) := by
  have hval : validationFailure p.collaborators_to_add = none := by
    simp [validationFailure, hadd, truthyDict]
  have hc : (s.collaborators.map (fun c => c.login)).contains u = true := by
    simp only [Provider.logins] at hmem
    simp [List.contains, List.elem_iff, hmem]
  have hchg2 : changeStep s p =
      change_collaborator_permissions s (qualifiedRepo p) [(u, l)] := by
    simp [changeStep, stateAfterCheck, checkStep, stateAfterRemove, removeStep,
      stateAfterAdd, addStep, hadd, hrem, hchk, hchg, truthyDict, truthyList,
      truthyStr_qualifiedRepo, Provider.applyTrace]
  constructor
  · have hmem2 : ∃ a ∈ s.collaborators, a.login = u := by
      simpa [Provider.logins, List.mem_map] using hmem
    simp only [run_module, hval]
    simp [hchg2, change_collaborator_permissions, hc, List.mem_append]
    exact Or.inr (Or.inr (Or.inr (Or.inr (Or.inl hmem2))))
  · intro m
    simp only [run_module, hval]
    cases cm <;> simp

/-- C4 witness: the amended theorem applied to the concrete directive
`toChange = {alice: triage}` against the two-collaborator provider. -/
theorem C4_change_level_not_validated_witness :
    ApiCall.grant (qualifiedRepo pChangeTriage) "alice" "triage" ∈
      (run_module false sTwo pChangeTriage).trace ∧
    (∀ m, (run_module false sTwo pChangeTriage).exit ≠ ModuleExit.failedInvalid m) :=
  C4_change_level_not_validated false sTwo "alice" "triage" pChangeTriage
    rfl rfl rfl rfl (by decide)

/-- The status fold of `check_permissions`: starting from `b`, the loop
returns `b` conjoined with "every pair matches". -/
theorem check_foldl_all (f : String → String) (l : List (String × String)) (b : Bool) :
    l.foldl (fun status p => if f p.1 != p.2 then false else status) b =
      (b && l.all (fun p => f p.1 == p.2)) := by
  induction l generalizing b with
  | nil => simp
  | cons hd tl ih =>
      simp only [List.foldl_cons, List.all_cons, ih]
      cases h : f hd.1 == hd.2 <;> simp [h, bne]

/-- C6: `check_permissions` returns true iff every `(login, expectedLevel)`
pair of the `toCheck` map matches the provider-reported effective permission
exactly — a single mismatch makes the whole call return false — and its
trace contains no mutating call. -/
theorem C6_check_permissions_all_match (s : Provider) (repo : String)
    (user_to_check : List (String × String)) :
    ((check_permissions s repo user_to_check).2 = true ↔
      ∀ pr ∈ user_to_check, s.effectivePerm pr.1 = pr.2) ∧
    mutationFree (check_permissions s repo user_to_check).1 = true := by
  constructor
  · simp only [check_permissions, check_foldl_all]
    simp [List.all_eq_true]
  · simp only [check_permissions, mutationFree, List.all_eq_true]
    intro c hc
    simp only [List.mem_cons, List.mem_map] at hc
    rcases hc with h | ⟨pr, _, h⟩ <;> subst h <;> rfl

/-- C7: `del_collaborators` revokes exactly the logins that are both in
`toRemove` and in the current direct-collaborator snapshot.  A login in
`toRemove` that is absent from the snapshot gets no revoke call, and when
no login of `toRemove` is a current collaborator the whole trace leaves the
provider state unchanged — removal of absent logins is a silent no-op. -/
theorem C7_del_collaborators_skips_absent (s : Provider) (repo : String)
    (to_remove : List String) (l : String) :
    (∀ u, ApiCall.revoke repo u ∈ del_collaborators s repo to_remove →
        u ∈ to_remove ∧ u ∈ s.logins) ∧
    (l ∈ to_remove → l ∉ s.logins →
        ApiCall.revoke repo l ∉ del_collaborators s repo to_remove) ∧
    ((∀ u ∈ to_remove, u ∉ s.logins) →
        Provider.applyTrace s (del_collaborators s repo to_remove) = s) := by
  have key : ∀ u, ApiCall.revoke repo u ∈ del_collaborators s repo to_remove →
      u ∈ to_remove ∧ u ∈ s.logins := by
    intro u hu
    simp only [del_collaborators, List.mem_cons, List.mem_map, List.mem_filter] at hu
    rcases hu with h | h | ⟨c, ⟨hcmem, hcont⟩, hlogin⟩
    · exact absurd h (by simp)
    · exact absurd h (by simp)
    · have hlu : c.login = u := by
        injection hlogin with h1 h2
      subst hlu
      refine ⟨?_, ?_⟩
      · simpa [List.contains] using hcont
      · exact List.mem_map_of_mem (fun c => c.login) hcmem
  refine ⟨key, ?_, ?_⟩
  · intro hl hnot hmem
    exact hnot (key l hmem).2
  · intro h
    have hfil : s.collaborators.filter (fun c => to_remove.contains c.login) = [] := by
      rw [List.filter_eq_nil_iff]
      intro c hc hcon
      exact h c.login (by simpa [List.contains] using hcon)
        (List.mem_map_of_mem (fun c => c.login) hc)
    show Provider.applyTrace s (ApiCall.getRepo repo :: ApiCall.listCollaborators repo ::
      (s.collaborators.filter (fun c => to_remove.contains c.login)).map
        (fun c => ApiCall.revoke repo c.login)) = s
    rw [hfil]
    rfl

/-- A grant that overwrites the permission of an existing collaborator does
not change any login: the login list of the snapshot is unchanged. -/
theorem logins_grant_update (s : Provider) (v lvl : String) :
    Provider.logins { s with collaborators := s.collaborators.map (fun c =>
      if c.login == v then { c with permissions := permFlags lvl } else c) } =
    s.logins := by
  simp only [Provider.logins, List.map_map]
  apply List.map_congr_left
  intro a _
  by_cases hav : a.login == v <;> simp [Function.comp, hav]

/-- A call that is not a grant for login `u` cannot make `u` a direct
collaborator. -/
theorem applyCall_not_mem_logins (s : Provider) (c : ApiCall) (u : String)
    (h : u ∉ s.logins) (hc : ∀ repo lvl, c ≠ ApiCall.grant repo u lvl) :
    u ∉ (s.applyCall c).logins := by
  cases c with
  | grant repo v lvl =>
      have hvu : v ≠ u := fun h2 => hc repo lvl (by rw [h2])
      simp only [Provider.applyCall]
      split
      · rw [logins_grant_update s v lvl]
        exact h
      · intro hmem
        simp only [Provider.logins] at h
        simp only [Provider.logins, List.map_append, List.map_cons, List.map_nil,
          List.mem_append, List.mem_singleton] at hmem
        rcases hmem with h1 | h1
        · exact h h1
        · exact hvu h1.symm
  | revoke repo v =>
      simp only [Provider.applyCall]
      intro hmem
      simp only [Provider.logins, List.mem_map] at h hmem
      obtain ⟨a, ha, rfl⟩ := hmem
      exact h ⟨a, List.mem_of_mem_filter ha, rfl⟩
  | getRepo repo => exact h
  | listCollaborators repo => exact h
  | getPermission repo v => exact h

/-- A trace containing no grant for login `u` cannot make `u` a direct
collaborator. -/
theorem applyTrace_not_mem_logins (s : Provider) (t : List ApiCall) (u : String)
    (h : u ∉ s.logins) (ht : ∀ repo lvl, ApiCall.grant repo u lvl ∉ t) :
    u ∉ (s.applyTrace t).logins := by
  induction t generalizing s with
  | nil => exact h
  | cons c t ih =>
      show u ∉ (Provider.applyTrace (s.applyCall c) t).logins
      apply ih
      · refine applyCall_not_mem_logins s c u h ?_
        intro repo lvl hceq
        exact ht repo lvl (by rw [hceq]; exact List.mem_cons_self _ _)
      · intro repo lvl hmem
        exact ht repo lvl (List.mem_cons_of_mem _ hmem)

/-- C8: `change_collaborator_permissions` issues grants only for logins that
are already in the direct-collaborator snapshot; for a login absent from the
snapshot no grant is issued, and that login is still absent after the whole
trace is applied — Change never creates a new collaborator relationship. -/
theorem C8_change_never_adds (s : Provider) (repo : String)
    (to_change : List (String × String)) (u : String) :
    (∀ v lvl, ApiCall.grant repo v lvl ∈ change_collaborator_permissions s repo to_change →
        (v, lvl) ∈ to_change ∧ v ∈ s.logins) ∧
    (u ∉ s.logins →
      (∀ rep lvl, ApiCall.grant rep u lvl ∉ change_collaborator_permissions s repo to_change) ∧
      u ∉ (Provider.applyTrace s (change_collaborator_permissions s repo to_change)).logins) := by
  have key : ∀ rep v lvl,
      ApiCall.grant rep v lvl ∈ change_collaborator_permissions s repo to_change →
      (v, lvl) ∈ to_change ∧ v ∈ s.logins := by
    intro rep v lvl h
    simp only [change_collaborator_permissions, List.mem_cons, List.mem_map,
      List.mem_filter] at h
    rcases h with h | h | ⟨pr, ⟨hmem, hcont⟩, heq⟩
    · exact absurd h (by simp)
    · exact absurd h (by simp)
    · have h1 : pr.1 = v := by injection heq with e1 e2 e3
      have h2 : pr.2 = lvl := by injection heq with e1 e2 e3
      refine ⟨?_, ?_⟩
      · rw [← h1, ← h2]
        exact hmem
      · rw [← h1]
        simpa [Provider.logins, List.contains] using hcont
  constructor
  · intro v lvl h
    exact key repo v lvl h
  · intro hu
    have hng : ∀ rep lvl, ApiCall.grant rep u lvl ∉
        change_collaborator_permissions s repo to_change := by
      intro rep lvl hmem
      exact hu (key rep u lvl hmem).2
    exact ⟨hng, applyTrace_not_mem_logins s _ u hu hng⟩

/-- `permissionsOfJson` inverts `jsonOfPermissions`. -/
theorem permissionsOfJson_jsonOfPermissions (p : Permissions) :
    permissionsOfJson (jsonOfPermissions p) = p := rfl

/-- `collabOfJson` inverts `jsonOfCollab`. -/
theorem collabOfJson_jsonOfCollab (c : CollabOutput) :
    collabOfJson (jsonOfCollab c) = c := rfl

/-- `listOfJsonArr` inverts `serialize`. -/
theorem listOfJsonArr_serialize (l : List CollabOutput) :
    listOfJsonArr (serialize l) = l := by
  induction l with
  | nil => rfl
  | cons x xs ih =>
      show collabOfJson (jsonOfCollab x) :: listOfJsonArr (serialize xs) = x :: xs
      rw [collabOfJson_jsonOfCollab, ih]

/-- `json.dumps` is injective on snapshots: equal documents come from equal
snapshot lists. -/
theorem serialize_injective : Function.Injective serialize := by
  intro a b h
  rw [← listOfJsonArr_serialize a, ← listOfJsonArr_serialize b, h]

/-- C5: for a successful (non-check-mode, validation-passing) invocation,
the returned changed flag equals the inequality of the serialized before-
and after-snapshots: it is false exactly when the two snapshots serialize
identically, and any difference in the recorded collaborator state makes it
true. -/
theorem C5_changed_iff_serialized_diff (s : Provider) (p : ModuleParams)
    (changed : Bool) (output : List CollabOutput)
    (hval : validationFailure p.collaborators_to_add = none)
    (hexit : (run_module false s p).exit = ModuleExit.success changed output) :
    changed = (serialize (get_collaborators s.collaborators) != serialize output) ∧
    (changed = false ↔
      serialize (get_collaborators s.collaborators) = serialize output) ∧
    (get_collaborators s.collaborators ≠ output → changed = true) := by
  simp only [run_module, hval, Bool.false_eq_true, if_false,
    ModuleExit.success.injEq] at hexit
  obtain ⟨hchanged, houtput⟩ := hexit
  subst houtput
  refine ⟨hchanged.symm, ?_, ?_⟩
  · rw [← hchanged]
    simp [bne_eq_false_iff_eq]
  · intro hne
    rw [← hchanged]
    rw [bne_iff_ne]
    intro hser
    exact hne (serialize_injective hser)

/-- C5 witness: the theorem applied to an invocation with all four directive
sets absent against the stable two-collaborator provider: the flag is false
and the snapshots serialize identically. -/
theorem C5_changed_iff_serialized_diff_witness :
    false = (serialize (get_collaborators sTwo.collaborators) !=
      serialize [collabEntry bob, collabEntry bob]) ∧
    (false = false ↔ serialize (get_collaborators sTwo.collaborators) =
      serialize [collabEntry bob, collabEntry bob]) ∧
    (get_collaborators sTwo.collaborators ≠ [collabEntry bob, collabEntry bob] →
      false = true) :=
  C5_changed_iff_serialized_diff sTwo pEmpty false [collabEntry bob, collabEntry bob]
    (by decide) (by decide)

/-- C9: when validation passes, the trace of one invocation is the
before-read, then the add calls, the remove calls, the check calls and the
change calls in that fixed order, then the after-read; each of the four
steps contributes no remote call at all when its directive set is empty or
absent, and the check step never issues a mutating call. -/
theorem C9_fixed_order_and_skipping (cm : Bool) (s : Provider) (p : ModuleParams)
    (hval : validationFailure p.collaborators_to_add = none) :
    (run_module cm s p).trace =
      readTrace (qualifiedRepo p) ++ addStep p ++ removeStep s p ++
      checkStep s p ++ changeStep s p ++ readTrace (qualifiedRepo p) ∧
    (truthyDict p.collaborators_to_add = false → addStep p = []) ∧
    (truthyList p.collaborators_to_remove = false → removeStep s p = []) ∧
    (truthyDict p.check_collaborator = false → checkStep s p = []) ∧
    (truthyDict p.collaborators_to_change = false → changeStep s p = []) ∧
    mutationFree (checkStep s p) = true := by
  refine ⟨?_, ?_, ?_, ?_, ?_, ?_⟩
  · simp only [run_module, hval]
  · intro h
    simp [addStep, h]
  · intro h
    simp [removeStep, h]
  · intro h
    simp [checkStep, h]
  · intro h
    simp [changeStep, h]
  · simp only [checkStep]
    split
    · simp only [check_permissions, mutationFree, List.all_eq_true]
      intro c hc
      simp only [List.mem_cons, List.mem_map] at hc
      rcases hc with h | ⟨pr, _, h⟩ <;> subst h <;> rfl
    · rfl

/-- C9 witness: the theorem applied to a concrete invocation that supplies
only `collaborators_to_add`, so the remove, check and change steps are
skipped. -/
theorem C9_fixed_order_and_skipping_witness :
    (run_module false sTwo pAddCarol).trace =
      readTrace (qualifiedRepo pAddCarol) ++ addStep pAddCarol ++
      removeStep sTwo pAddCarol ++ checkStep sTwo pAddCarol ++
      changeStep sTwo pAddCarol ++ readTrace (qualifiedRepo pAddCarol) ∧
    (truthyDict pAddCarol.collaborators_to_add = false → addStep pAddCarol = []) ∧
    (truthyList pAddCarol.collaborators_to_remove = false →
      removeStep sTwo pAddCarol = []) ∧
    (truthyDict pAddCarol.check_collaborator = false → checkStep sTwo pAddCarol = []) ∧
    (truthyDict pAddCarol.collaborators_to_change = false →
      changeStep sTwo pAddCarol = []) ∧
    mutationFree (checkStep sTwo pAddCarol) = true :=
  C9_fixed_order_and_skipping false sTwo pAddCarol (by decide)

/-- C10: validation of `toAdd` is case-insensitive while the grant is not:
when every `toAdd` level lowercases into {push, pull, admin}, validation
passes, and each (login, level) pair is forwarded to the provider as a
grant carrying the original, non-lowercased level string. -/
theorem C10_case_insensitive_validation_forwards_original (cm : Bool) (s : Provider)
    (p : ModuleParams) (to_add : List (String × String)) (u lvl : String)
    (hp : p.collaborators_to_add = some to_add)
    (hall : ∀ pr ∈ to_add, pyLower pr.2 ∈ valid_permissions)
    (hmem : (u, lvl) ∈ to_add) :
    validationFailure p.collaborators_to_add = none ∧
    ApiCall.grant (qualifiedRepo p) u lvl ∈ (run_module cm s p).trace := by
  have hval : validationFailure p.collaborators_to_add = none := by
    simp only [validationFailure, hp, Option.getD_some]
    split
    · rw [List.find?_eq_none]
      intro x hx
      have hm := hall x hx
      simpa [List.contains] using hm
    · rfl
  refine ⟨hval, ?_⟩
  have hne : to_add ≠ [] := List.ne_nil_of_mem hmem
  have haddstep : addStep p = add_collaborator (qualifiedRepo p) to_add := by
    simp [addStep, truthyDict, hp, truthyStr_qualifiedRepo, hne]
  have hga : ApiCall.grant (qualifiedRepo p) u lvl ∈ addStep p := by
    rw [haddstep]
    exact List.mem_cons_of_mem _ (List.mem_map_of_mem _ hmem)
  simp only [run_module, hval]
  exact List.mem_append_left _ (List.mem_append_left _ (List.mem_append_left _
    (List.mem_append_left _ (List.mem_append_right _ hga))))

/-- C10 witness: the theorem applied to the directive `{carol: ADMIN}` —
the upper-case level passes validation, and the grant carries "ADMIN"
verbatim (and no lowercased grant is issued). -/
theorem C10_case_insensitive_validation_forwards_original_witness :
    (validationFailure pAddCarolUpper.collaborators_to_add = none ∧
      ApiCall.grant (qualifiedRepo pAddCarolUpper) "carol" "ADMIN" ∈
        (run_module false sTwo pAddCarolUpper).trace) ∧
    ApiCall.grant (qualifiedRepo pAddCarolUpper) "carol" "admin" ∉
      (run_module false sTwo pAddCarolUpper).trace :=
  ⟨C10_case_insensitive_validation_forwards_original false sTwo pAddCarolUpper
    [("carol", "ADMIN")] "carol" "ADMIN" rfl (by decide) (by decide), by decide⟩

end CollabInfo
